import Mathlib

/-!
Shallow embedding of the blog-manager core from
`src/XinEn/blogvideophoto/blog.js` (the jQuery variant; the second,
fetch-based variant in `src/unnamed/part_000` agrees on the functions
cited here except where noted in comments).

Modelling conventions:
* JS strings are Lean `String`s; `trim`, `split`, `includes` are
  re-implemented over `List Char` so that every definition reduces in
  the kernel (`decide` / `rfl`).
* Timestamps (`new Date().toISOString()`, date arithmetic) are modelled
  as natural numbers counting milliseconds; each function that calls
  `new Date()` takes the current time as an explicit `now : Nat`
  argument.  The source divides by `1000*60*60*24` before comparing
  with `7`; the embedded guard compares `now - savedAt` with
  `7 * 86400000` directly, which is the same condition.
* DOM reads (`document.getElementById(...).value`) become fields of an
  explicit `FormState` record; DOM writes to form fields become the
  returned `FormState`.  Rendering, notifications and sessionStorage
  mirroring are side-effect free for the in-memory model and are
  dropped.
* JS truthiness of a string (`if (s)`) is `s ≠ ""`; `a || b` on strings
  is `jsOrS`; truthiness of a nullable string is `jsTruthyOpt`.
* All embedded functions are total, which models the source's
  throw-free defensive behaviour on the modelled paths.
-/

namespace Blog

/-- Characters removed by JavaScript's `String.prototype.trim`
(the whitespace characters that occur in this code base). -/
def jsWhite (c : Char) : Bool :=
  c = ' ' ∨ c = '\t' ∨ c = '\n' ∨ c = '\r'

/-- List-level trim: drop `jsWhite` characters from both ends. -/
def trimChars (l : List Char) : List Char :=
  ((l.dropWhile jsWhite).reverse.dropWhile jsWhite).reverse

/-- Model of JavaScript `s.trim()`. -/
def jsTrim (s : String) : String :=
  (trimChars s.toList).asString

/-- JS truthiness of a string: `""` is falsy, all other strings truthy. -/
def jsTruthy (s : String) : Bool :=
  s ≠ ""

/-- JS `a || b` on two strings: the first operand if truthy, else the second. -/
def jsOrS (a b : String) : String :=
  if a = "" then b else a

/-- JS truthiness of a nullable string (`null` and `""` are falsy). -/
def jsTruthyOpt : Option String → Bool
  | none => false
  | some s => s ≠ ""

/-- Check that `pat` occurs at the front of `l`. -/
def leadsWith : List Char → List Char → Bool
  | [], _ => true
  | _ :: _, [] => false
  | a :: pat, b :: l => a = b && leadsWith pat l

/-- Check that `pat` occurs somewhere inside `l`. -/
def occursIn (pat : List Char) : List Char → Bool
  | [] => leadsWith pat []
  | b :: l => leadsWith pat (b :: l) || occursIn pat l

/-- Model of JavaScript `hay.includes(needle)`. -/
def containsSub (needle hay : String) : Bool :=
  occursIn needle.toList hay.toList

/-- Model of `str.split(',').map(t => t.trim()).filter(t => t)`
(the tag parser in `createPostData`). -/
def parseTags (s : String) : List String :=
  (((s.toList.splitOn ',').map (fun t => (trimChars t).asString)).filter
    (fun t => t ≠ ""))

/-- Model of `(post.tags || []).join(', ')` used when hydrating the edit form. -/
def joinTags (tags : List String) : String :=
  match tags with
  | [] => ""
  | t :: ts => ts.foldl (fun acc x => acc ++ ", " ++ x) t

/-- Unsplash attribution record attached to a selected image. -/
structure Attribution where
  photographer : String
  photographerUrl : String
  sourceUrl : String
deriving DecidableEq, Repr

/-- A file selected in the `postImage` input: MIME type, byte size, and the
data-URL contents that `FileReader.readAsDataURL` would produce. -/
structure ImageFile where
  mimeType : String
  size : Nat
  data : String
deriving DecidableEq, Repr

/-- The form's DOM state: the five tracked text fields, the optional
`postContent` field (absent from the form in some pages, hence `Option`),
and the file chosen in the image input. -/
structure FormState where
  authorName : String
  postCategory : String
  postTitle : String
  postExcerpt : String
  postTags : String
  postContent : Option String
  imageFile : Option ImageFile
deriving DecidableEq, Repr

/-- The form with every field empty (what `blogForm.reset()` produces). -/
def emptyForm : FormState :=
  { authorName := "", postCategory := "", postTitle := "", postExcerpt := ""
    postTags := "", postContent := none, imageFile := none }

/-- The draft object built by `saveFormDraft` (field values, save timestamp,
attribution, and the optional non-data-URL preview source). -/
structure Draft where
  authorName : String
  postCategory : String
  postTitle : String
  postExcerpt : String
  postTags : String
  savedAt : Nat
  selectedImageAttribution : Option Attribution
  previewImageSrc : Option String
deriving DecidableEq, Repr

/-- The object literal built by `createPostData`: exactly the nine
properties the source constructs (no `dateEdited`, no `imageAttribution`). -/
structure PostData where
  author : String
  category : String
  title : String
  image : Option String
  excerpt : String
  content : String
  tags : List String
  date : Nat
  views : Nat
deriving DecidableEq, Repr

/-- A stored post: the `createPostData` fields plus the two properties that
only later mutations introduce (`dateEdited` from `updatePost`,
`imageAttribution` from `createPost`). -/
structure Post where
  author : String
  category : String
  title : String
  image : Option String
  excerpt : String
  content : String
  tags : List String
  date : Nat
  views : Nat
  dateEdited : Option Nat
  imageAttribution : Option Attribution
deriving DecidableEq, Repr

/-- The `BlogManager` instance state that the core operations touch:
the post store, the single pending draft, the edit-session index
(`null` = create mode) and the pending Unsplash attribution. -/
structure BlogState where
  posts : List Post
  formDraft : Option Draft
  currentEditIndex : Option Nat
  selectedImageAttribution : Option Attribution
deriving DecidableEq, Repr

/-- The state the `BlogManager` constructor builds. -/
def initState : BlogState :=
  { posts := [], formDraft := none, currentEditIndex := none
    selectedImageAttribution := none }

/-- Reading a tracked form field by its element id
(models `document.getElementById(fieldId).value` for the four required
fields iterated by `validateForm`). -/
def fieldValue (form : FormState) : String → String
  | "authorName" => form.authorName
  | "postCategory" => form.postCategory
  | "postTitle" => form.postTitle
  | "postExcerpt" => form.postExcerpt
  | "postTags" => form.postTags
  | _ => ""

/-- The fixed iteration order of `validateForm`'s required-field loop. -/
def requiredFields : List String :=
  ["authorName", "postCategory", "postTitle", "postExcerpt"]

/-- Model of `validateImageFile`: `none` = valid, `some msg` = the inline
error message it writes before returning `false`. -/
def validateImageFile (f : ImageFile) : Option String :=
  if ¬ (f.mimeType = "image/png" ∨ f.mimeType = "image/jpeg" ∨
        f.mimeType = "image/jpg") then
    some "Please upload PNG or JPG only."
  else if f.size > 5 * 1024 * 1024 then
    some "Image must be less than 5MB."
  else
    none

/-- The first required field whose value is blank after trimming, in the
loop order of `validateForm`. -/
def firstBlankRequired (form : FormState) : Option String :=
  requiredFields.find? (fun fid => jsTrim (fieldValue form fid) = "")

/-- Model of `validateForm`: `none` = the form passed, `some msg` = the
single inline error written for the first failing rule.  The source's
message is `` `${label} is required.` `` where `label` falls back to the
field id when the input has no DOM label; the embedded message uses that
field-id fallback.  The required-field loop runs before any image check,
and the image is required only in create mode (`currentEditIndex = none`). -/
def validateForm (form : FormState) (currentEditIndex : Option Nat) :
    Option String :=
  match firstBlankRequired form with
  | some fid => some (fid ++ " is required.")
  | none =>
    match currentEditIndex with
    | none =>
      match form.imageFile with
      | none => some "Featured image is required."
      | some f => validateImageFile f
    | some _ =>
      match form.imageFile with
      | none => none
      | some f => validateImageFile f

/-- Model of `createPostData`: the nine-property object literal built from
the form (trimmed fields, tags parsed from the comma list, fresh `date`,
`views: 0` is written literally in the source). -/
def createPostData (form : FormState) (image : Option String) (now : Nat) :
    PostData :=
  { author := jsTrim form.authorName
    category := form.postCategory
    title := jsTrim form.postTitle
    image := image
    excerpt := jsTrim form.postExcerpt
    content := jsOrS (jsTrim (form.postContent.getD ""))
      (jsTrim form.postExcerpt)
    tags := parseTags form.postTags
    date := now
    views := 0 }

/-- Model of `clearFormDraft` (memory effect; the sessionStorage mirror is
best-effort and carries the same value). -/
def clearFormDraft (s : BlogState) : BlogState :=
  { s with formDraft := none, selectedImageAttribution := none }

/-- Model of `createPost`: attach and consume the pending attribution,
prepend the new post, then clear the draft. -/
def createPost (s : BlogState) (pd : PostData) : BlogState :=
  let post : Post :=
    { author := pd.author, category := pd.category, title := pd.title
      image := pd.image, excerpt := pd.excerpt, content := pd.content
      tags := pd.tags, date := pd.date, views := pd.views
      dateEdited := none
      imageAttribution := s.selectedImageAttribution }
  clearFormDraft { s with posts := post :: s.posts
                          selectedImageAttribution := none }

/-- The merged post `updatePost` stores: `{...existingPost, ...postData,
views: existingPost.views || 0, dateEdited: new Date().toISOString()}`.
`postData` has no `dateEdited` or `imageAttribution` key, so the spread
keeps the existing post's `imageAttribution` and every `postData` field
(including its fresh `date`) overwrites the existing one. -/
def mergeForUpdate (ex : Post) (pd : PostData) (now : Nat) : Post :=
  { author := pd.author, category := pd.category, title := pd.title
    image := pd.image, excerpt := pd.excerpt, content := pd.content
    tags := pd.tags, date := pd.date
    views := ex.views
    dateEdited := some now
    imageAttribution := ex.imageAttribution }

/-- Model of `updatePost`: silent no-op when the index is not occupied. -/
def updatePost (s : BlogState) (i : Nat) (pd : PostData) (now : Nat) :
    BlogState :=
  match s.posts[i]? with
  | none => s
  | some ex => { s with posts := s.posts.set i (mergeForUpdate ex pd now) }

/-- Model of `deletePost`: silent no-op on a vacant index; on an occupied
index the splice happens only when the external `confirm` dialog is
accepted. -/
def deletePost (s : BlogState) (i : Nat) (confirmed : Bool) : BlogState :=
  match s.posts[i]? with
  | none => s
  | some _ =>
    if confirmed then { s with posts := s.posts.eraseIdx i } else s

/-- Model of the user-post branch of `openPostDetail`: bump the post's view
count by one and report the new value (the number the source writes into
the rendered view counter); `none` when the index is vacant. -/
def openPostDetail (s : BlogState) (i : Nat) : BlogState × Option Nat :=
  match s.posts[i]? with
  | none => (s, none)
  | some p =>
    ({ s with posts := s.posts.set i { p with views := p.views + 1 } },
      some (p.views + 1))

/-- Model of `hasUnsavedChanges`.  The source returns
`authorName.trim() || postCategory || postTitle.trim() ||
postExcerpt.trim() || postTags.trim()` — a string, used for its
truthiness; note that `postCategory` is not trimmed. -/
def hasUnsavedChanges (form : FormState) : String :=
  jsOrS (jsTrim form.authorName)
    (jsOrS form.postCategory
      (jsOrS (jsTrim form.postTitle)
        (jsOrS (jsTrim form.postExcerpt) (jsTrim form.postTags))))

/-- Model of `closeModals` (state effect: leave edit mode). -/
def closeModals (s : BlogState) : BlogState :=
  { s with currentEditIndex := none }

/-- The draft object literal `saveFormDraft` builds before the dedup check
(no `previewImageSrc` key yet — that key is added only after the check). -/
def draftCandidate (s : BlogState) (form : FormState) (now : Nat) : Draft :=
  { authorName := form.authorName, postCategory := form.postCategory
    postTitle := form.postTitle, postExcerpt := form.postExcerpt
    postTags := form.postTags
    savedAt := now
    selectedImageAttribution := s.selectedImageAttribution
    previewImageSrc := none }

/-- Model of `saveFormDraft` in the jQuery variant (`blog.js`).
`preview` is `document.getElementById('previewImg')?.src`.
The dedup guard in the source is
`JSON.stringify(formData) === JSON.stringify({...this.formDraft,
savedAt: this.formDraft.savedAt})`; the right-hand side reproduces the
stored draft unchanged (the `savedAt:` override writes back the value the
spread already copied), so the serialized comparison succeeds exactly when
the stored draft has no `previewImageSrc` key and every field of the
candidate — `savedAt` included — equals the stored one.  Record equality
with the candidate (whose `previewImageSrc` is `none`) states exactly
that.  The fetch-based variant in `part_000` has no dedup check and no
`hasUnsavedChanges` guard. -/
def saveFormDraft (s : BlogState) (form : FormState)
    (preview : Option String) (now : Nat) : BlogState :=
  if s.currentEditIndex.isSome then s
  else if jsTruthy (hasUnsavedChanges form) = false then s
  else
    let candidate := draftCandidate s form now
    let dedupHit : Bool :=
      match s.formDraft with
      | some d => d = candidate
      | none => false
    if dedupHit then s
    else
      let stored :=
        match preview with
        | some p =>
          if p ≠ "" ∧ containsSub "data:" p = false then
            { candidate with previewImageSrc := some p }
          else candidate
        | none => candidate
      { s with formDraft := some stored }

/-- Milliseconds per day, the divisor in the draft-age computation. -/
def msPerDay : Nat := 1000 * 60 * 60 * 24

/-- Model of `loadFormDraft`: returns the updated manager state, the
updated form, and the source's boolean result.  The expiry guard
`(now - savedDate) / (1000*60*60*24) > 7` is embedded as
`now - savedAt > 7 * msPerDay`, the same condition without the division
(Nat subtraction truncates at zero exactly where the JS difference would
be negative, and a non-positive difference never exceeds 7 days).
Restoration writes a draft value into a form field only when that value
is truthy (`if (field && formData[key])`). -/
def loadFormDraft (s : BlogState) (form : FormState) (now : Nat) :
    BlogState × FormState × Bool :=
  match s.formDraft with
  | none => (s, form, false)
  | some d =>
    if now - d.savedAt > 7 * msPerDay then
      (clearFormDraft s, form, false)
    else
      let form' :=
        { form with
          authorName := if d.authorName ≠ "" then d.authorName
            else form.authorName
          postCategory := if d.postCategory ≠ "" then d.postCategory
            else form.postCategory
          postTitle := if d.postTitle ≠ "" then d.postTitle
            else form.postTitle
          postExcerpt := if d.postExcerpt ≠ "" then d.postExcerpt
            else form.postExcerpt
          postTags := if d.postTags ≠ "" then d.postTags
            else form.postTags }
      let s' :=
        match d.selectedImageAttribution with
        | some a => { s with selectedImageAttribution := some a }
        | none => s
      (s', form', true)

/-- Model of `openCreateModal` (state and form effects): enter create mode,
reset the form, then try to hydrate it from the stored draft. -/
def openCreateModal (s : BlogState) (now : Nat) :
    BlogState × FormState × Bool :=
  loadFormDraft { s with currentEditIndex := none } emptyForm now

/-- Model of `openEditModal`.  The source assigns
`this.currentEditIndex = index` before the `if (!post) return` guard, so
an invalid index still switches the session out of create mode; only a
valid index clears the draft and hydrates the form from the post. -/
def openEditModal (s : BlogState) (form : FormState) (i : Nat) :
    BlogState × FormState :=
  let s1 := { s with currentEditIndex := some i }
  match s.posts[i]? with
  | none => (s1, form)
  | some post =>
    let form' :=
      { form with
        authorName := post.author
        postCategory := post.category
        postTitle := post.title
        postExcerpt := post.excerpt
        postTags := joinTags post.tags }
    (clearFormDraft s1, form')

/-- Model of `handleSubmit` when the submitted form carries no usable new
image file (`!(imageFile && imageFile.size > 0)`), after validation has
already passed. -/
def handleSubmitNoNewImage (s : BlogState) (form : FormState) (now : Nat) :
    BlogState × Option String :=
  match s.currentEditIndex with
  | some i =>
    let pd := createPostData form none now
    let pd' :=
      match s.posts[i]? with
      | some ex =>
        if jsTruthyOpt ex.image then { pd with image := ex.image } else pd
      | none => pd
    (closeModals (updatePost s i pd' now), none)
  | none => (s, some "Please select an image file.")

/-- Model of `handleSubmit`: validate first (returning the inline error and
leaving all state untouched on failure); on success read the image file if
one was supplied and either update the current post or create a new one,
then close the modal.  The `FileReader` read is modelled by the file's
`data` field. -/
def handleSubmit (s : BlogState) (form : FormState) (now : Nat) :
    BlogState × Option String :=
  match validateForm form s.currentEditIndex with
  | some msg => (s, some msg)
  | none =>
    match form.imageFile with
    | some f =>
      if 0 < f.size then
        let pd := createPostData form (some f.data) now
        match s.currentEditIndex with
        | some i => (closeModals (updatePost s i pd now), none)
        | none => (closeModals (createPost s pd), none)
      else handleSubmitNoNewImage s form now
    | none => handleSubmitNoNewImage s form now

/-- What `handleSort` reads off each rendered post element: its `h3` title
text and its `data-date` attribute (a timestamp, here in milliseconds;
a missing attribute becomes the epoch `0` in the source and is subsumed
by the `Nat` model). -/
structure SortEntry where
  title : String
  date : Nat
deriving DecidableEq, Repr

/-- Code-point comparison of two strings as character lists, modelling the
default-locale `localeCompare` on the plain titles this page uses. -/
def titleLe : List Char → List Char → Bool
  | [], _ => true
  | _ :: _, [] => false
  | a :: as, b :: bs =>
    if a.toNat < b.toNat then true
    else if b.toNat < a.toNat then false
    else titleLe as bs

/-- The "a does not need to come after b" relation induced by
`handleSort`'s comparator for each sort key: `newest` and `oldest`
compare the `data-date` timestamps (descending and ascending), `title`
compares titles, and any other key returns `0`, i.e. every pair ties. -/
def sortLe (sortValue : String) (a b : SortEntry) : Bool :=
  if sortValue = "newest" then b.date ≤ a.date
  else if sortValue = "oldest" then a.date ≤ b.date
  else if sortValue = "title" then titleLe a.title.toList b.title.toList
  else true

/-- Model of `handleSort` on the combined list of rendered post entries.
`Array.prototype.sort` is a stable comparator sort; with the consistent
comparators above its result is the unique stable ordering, realized here
by insertion sort (stable: an element is inserted after every element it
ties with). -/
def handleSort (sortValue : String) (entries : List SortEntry) :
    List SortEntry :=
  List.insertionSort (fun a b => sortLe sortValue a b = true) entries

/-- One user-level event of the core: an autosave fire (with the form
content and preview source it reads), opening the create or edit modal,
closing the modal, a form submit, a delete request (with the outcome of
the `confirm` dialog), or opening a post's detail view. -/
inductive Op where
  | autosave (form : FormState) (preview : Option String) (now : Nat)
  | openCreate (now : Nat)
  | openEdit (i : Nat)
  | closeModal
  | submit (form : FormState) (now : Nat)
  | deleteReq (i : Nat) (confirmed : Bool)
  | viewPost (i : Nat)
deriving DecidableEq, Repr

/-- The manager-state effect of one event (form effects are carried by the
event's own inputs: every mutation of `BlogState` happens synchronously
inside a single event callback). -/
def stepOp (s : BlogState) (op : Op) : BlogState :=
  match op with
  | .autosave form preview now => saveFormDraft s form preview now
  | .openCreate now => (openCreateModal s now).1
  | .openEdit i => (openEditModal s emptyForm i).1
  | .closeModal => closeModals s
  | .submit form now => (handleSubmit s form now).1
  | .deleteReq i c => deletePost s i c
  | .viewPost i => (openPostDetail s i).1

/-- Run a sequence of events from a state. -/
def run (s : BlogState) (ops : List Op) : BlogState :=
  ops.foldl stepOp s

/-! Concrete fixtures used by witnesses and counterexamples. -/

/-- A form whose only content is the author name. -/
def formAOnly : FormState :=
  { emptyForm with authorName := "A" }

/-- A 1 KB PNG upload. -/
def pngSample : ImageFile :=
  { mimeType := "image/png", size := 1024
    data := "data:image/png;base64,xyz" }

/-- A fully valid create-mode form. -/
def formFull : FormState :=
  { authorName := "A", postCategory := "food", postTitle := "T"
    postExcerpt := "E", postTags := "", postContent := none
    imageFile := some pngSample }

/-- A form that is blank except for whitespace in the category field. -/
def catOnlyWhitespace : FormState :=
  { emptyForm with postCategory := " " }

/-- A sample draft saved at t = 1000 ms. -/
def draftSample : Draft :=
  { authorName := "A", postCategory := "food", postTitle := "T"
    postExcerpt := "E", postTags := "x, y", savedAt := 1000
    selectedImageAttribution := none, previewImageSrc := none }

/-- A manager state holding `draftSample`. -/
def stateWithDraft : BlogState :=
  { initState with formDraft := some draftSample }

/-- A sample Unsplash attribution. -/
def attrSample : Attribution :=
  { photographer := "P", photographerUrl := "u", sourceUrl := "v" }

/-- An existing post carrying an image and an attribution. -/
def postSample : Post :=
  { author := "Old", category := "travel", title := "OldT"
    image := some "img", excerpt := "OldE", content := "OldE"
    tags := [], date := 1, views := 3, dateEdited := none
    imageAttribution := some attrSample }

/-- A manager state editing `postSample` at index 0. -/
def stateEditing : BlogState :=
  { initState with posts := [postSample], currentEditIndex := some 0 }

/-- Rendered entry with title "B" and the earlier timestamp. -/
def entryB : SortEntry := { title := "B", date := 10 }

/-- Rendered entry with title "A" and the later timestamp. -/
def entryA : SortEntry := { title := "A", date := 20 }

/-! Claim theorems. -/

/-- C1: on any submit, the required fields are checked in the fixed order
authorName, postCategory, postTitle, postExcerpt before any image check
(`firstBlankRequired` is the first blank field in exactly that order, and
the conclusion holds whatever `form.imageFile` is); the first failing
field produces the single error message naming it, submission stops, and
the whole manager state — the post store included — is returned
unchanged. -/
theorem handleSubmit_blank_required_stops (s : BlogState) (form : FormState)
    (now : Nat) (fid : String)
    (h : firstBlankRequired form = some fid) :
    handleSubmit s form now = (s, some (fid ++ " is required.")) := by
  unfold handleSubmit validateForm
  rw [h]

/-- Witness for C1: the all-blank form fails on `authorName` first and the
post store is untouched. -/
theorem handleSubmit_blank_required_stops_witness :
    handleSubmit initState emptyForm 0 =
      (initState, some "authorName is required.") :=
  handleSubmit_blank_required_stops initState emptyForm 0 "authorName"
    (by decide)

/-- C3 (code bug): two consecutive autosave fires with the identical
tracked-field content and attribution, 1000 ms apart, both write: the
second fire overwrites the draft and bumps `savedAt` from 0 to 1000.
The source's dedup guard compares
`JSON.stringify(formData)` with `JSON.stringify({...this.formDraft,
savedAt: this.formDraft.savedAt})`, whose `savedAt:` override re-writes
the old value the spread already copied — so the "snapshot excluding the
timestamp" comparison the code's own comment announces (`Check if data
has actually changed from last save` / `No changes, don't save`) actually
includes the fresh timestamp and fails whenever the two fires happen in
different milliseconds.  The last conjunct shows the guard only takes
effect when the second fire carries the very same timestamp. -/
theorem saveFormDraft_rewrites_identical_content :
    ((saveFormDraft initState formAOnly none 0).formDraft.map
      Draft.savedAt) = some 0 ∧
    ((saveFormDraft (saveFormDraft initState formAOnly none 0)
        formAOnly none 1000).formDraft.map Draft.savedAt) = some 1000 ∧
    ((saveFormDraft (saveFormDraft initState formAOnly none 0)
        formAOnly none 0).formDraft.map Draft.savedAt) = some 0 := by
  decide

/-- C5 counterexample: `openEdit` on an invalid index is not a complete
no-op — starting from the initial state (empty post store, create mode),
`openEditModal 0` flips the edit-session index from `none` (create mode)
to `some 0`, because the source assigns `this.currentEditIndex = index`
before its `if (!post) return` guard. -/
theorem openEditModal_invalid_changes_mode :
    initState.currentEditIndex = none ∧
    (openEditModal initState emptyForm 0).1.currentEditIndex = some 0 := by
  decide

/-- C5 amended: on an index that holds no post, `openEdit(i)` sets the
edit-session index to `i` but changes nothing else (posts, draft,
attribution and the form are untouched) and throws no error, while
`update(i, patch)` and `delete(i)` leave the state entirely unchanged
without throwing (totality of the definitions models absence of
throws). -/
theorem invalid_index_ops (s : BlogState) (form : FormState) (i : Nat)
    (pd : PostData) (now : Nat) (confirmed : Bool)
    (h : s.posts[i]? = none) :
    openEditModal s form i = ({ s with currentEditIndex := some i }, form) ∧
    updatePost s i pd now = s ∧
    deletePost s i confirmed = s := by
  refine ⟨?_, ?_, ?_⟩
  · unfold openEditModal
    rw [h]
  · unfold updatePost
    rw [h]
  · unfold deletePost
    rw [h]

/-- Witness for C5 amended: index 0 of the empty store. -/
theorem invalid_index_ops_witness :
    openEditModal initState emptyForm 0 =
      ({ initState with currentEditIndex := some 0 }, emptyForm) ∧
    updatePost initState 0 (createPostData emptyForm none 0) 0 = initState ∧
    deletePost initState 0 true = initState :=
  invalid_index_ops initState emptyForm 0 (createPostData emptyForm none 0)
    0 true (by decide)

/-- Empty-string law for the JS `||` chain: the chain is falsy exactly when
every operand is the empty string. -/
theorem jsOrS_eq_empty (a b : String) :
    jsOrS a b = "" ↔ a = "" ∧ b = "" := by
  unfold jsOrS
  by_cases h : a = "" <;> simp [h]

/-- C8 counterexample: with every field blank except a lone space in
`postCategory`, every tracked field is empty after trimming, yet
`hasUnsavedChanges` is truthy — the source never trims `postCategory`
(`authorName.trim() || postCategory || ...`). -/
theorem hasUnsavedChanges_untrimmed_category :
    jsTruthy (hasUnsavedChanges catOnlyWhitespace) = true ∧
    jsTrim catOnlyWhitespace.authorName = "" ∧
    jsTrim catOnlyWhitespace.postCategory = "" ∧
    jsTrim catOnlyWhitespace.postTitle = "" ∧
    jsTrim catOnlyWhitespace.postExcerpt = "" ∧
    jsTrim catOnlyWhitespace.postTags = "" := by
  decide

/-- C8 amended: `hasUnsavedChanges()` is truthy iff the author, title,
excerpt or tags field is non-empty after trimming, or the category field
is non-empty as-is (whitespace included). -/
theorem hasUnsavedChanges_iff (form : FormState) :
    jsTruthy (hasUnsavedChanges form) = true ↔
    (jsTrim form.authorName ≠ "" ∨ form.postCategory ≠ "" ∨
     jsTrim form.postTitle ≠ "" ∨ jsTrim form.postExcerpt ≠ "" ∨
     jsTrim form.postTags ≠ "") := by
  unfold jsTruthy hasUnsavedChanges
  simp only [ne_eq, decide_eq_true_eq]
  rw [iff_comm, ← not_iff_not]
  push_neg
  simp [jsOrS_eq_empty, and_assoc]

/-- Witness for C8 amended: a form holding only an author name has unsaved
changes. -/
theorem hasUnsavedChanges_iff_witness :
    jsTruthy (hasUnsavedChanges formAOnly) = true :=
  (hasUnsavedChanges_iff formAOnly).mpr (Or.inl (by decide))

/-- C4: a stored draft loaded strictly more than 7 days after its
`savedAt` is discarded (draft store cleared, no restore, `false`
returned); loaded exactly 6 days after `savedAt` into the freshly reset
form, it reports success and every tracked field of the resulting form
equals the draft's saved value. -/
theorem loadFormDraft_expiry_and_restore (s : BlogState) (d : Draft)
    (form : FormState) (hd : s.formDraft = some d) :
    (∀ now, d.savedAt + 7 * msPerDay < now →
      loadFormDraft s form now = (clearFormDraft s, form, false)) ∧
    ((loadFormDraft s emptyForm (d.savedAt + 6 * msPerDay)).2.2 = true ∧
     (loadFormDraft s emptyForm
       (d.savedAt + 6 * msPerDay)).1.formDraft = some d ∧
     (loadFormDraft s emptyForm
       (d.savedAt + 6 * msPerDay)).2.1.authorName = d.authorName ∧
     (loadFormDraft s emptyForm
       (d.savedAt + 6 * msPerDay)).2.1.postCategory = d.postCategory ∧
     (loadFormDraft s emptyForm
       (d.savedAt + 6 * msPerDay)).2.1.postTitle = d.postTitle ∧
     (loadFormDraft s emptyForm
       (d.savedAt + 6 * msPerDay)).2.1.postExcerpt = d.postExcerpt ∧
     (loadFormDraft s emptyForm
       (d.savedAt + 6 * msPerDay)).2.1.postTags = d.postTags) := by
  constructor
  · intro now h
    simp only [loadFormDraft, hd]
    rw [if_pos (by omega)]
  · simp only [loadFormDraft, hd]
    rw [if_neg (by omega)]
    refine ⟨rfl, ?_, ?_, ?_, ?_, ?_, ?_⟩
    · cases h : d.selectedImageAttribution <;> simp [hd]
    · by_cases h : d.authorName = "" <;> simp [emptyForm, h]
    · by_cases h : d.postCategory = "" <;> simp [emptyForm, h]
    · by_cases h : d.postTitle = "" <;> simp [emptyForm, h]
    · by_cases h : d.postExcerpt = "" <;> simp [emptyForm, h]
    · by_cases h : d.postTags = "" <;> simp [emptyForm, h]

/-- Witness for C4: `draftSample` (saved at t = 1000 ms) is discarded one
millisecond past the 7-day mark and restored at the 6-day mark. -/
theorem loadFormDraft_expiry_and_restore_witness :
    loadFormDraft stateWithDraft emptyForm (1000 + 7 * msPerDay + 1) =
      (clearFormDraft stateWithDraft, emptyForm, false) ∧
    (loadFormDraft stateWithDraft emptyForm
      (1000 + 6 * msPerDay)).2.2 = true ∧
    (loadFormDraft stateWithDraft emptyForm
      (1000 + 6 * msPerDay)).2.1.authorName = draftSample.authorName := by
  have h := loadFormDraft_expiry_and_restore stateWithDraft draftSample
    emptyForm (by decide)
  exact ⟨h.1 (1000 + 7 * msPerDay + 1) (by decide), h.2.1, h.2.2.2.1⟩

/-- C7: from the empty store, a submit whose form passes create-mode
validation and carries a usable image file leaves exactly one post, at
index 0, with `views = 0`; opening its detail view twice bumps the count
by exactly 1 each time, reporting the new values 1 and then 2, so the
stored count ends at 2. -/
theorem create_then_view_twice (form : FormState) (f : ImageFile)
    (now : Nat) (himg : form.imageFile = some f) (hsz : 0 < f.size)
    (hval : validateForm form none = none) :
    ((handleSubmit initState form now).1.posts.length = 1) ∧
    (((handleSubmit initState form now).1.posts[0]?.map Post.views) =
      some 0) ∧
    ((openPostDetail (handleSubmit initState form now).1 0).2 = some 1) ∧
    ((openPostDetail
        (openPostDetail (handleSubmit initState form now).1 0).1 0).2 =
      some 2) ∧
    ((((openPostDetail
        (openPostDetail (handleSubmit initState form now).1 0).1
          0).1.posts[0]?).map Post.views) = some 2) := by
  have h1 : (handleSubmit initState form now).1 =
      closeModals (createPost initState
        (createPostData form (some f.data) now)) := by
    simp only [handleSubmit, show initState.currentEditIndex = none from rfl,
      hval, himg, if_pos hsz]
  rw [h1]
  simp [closeModals, createPost, clearFormDraft, createPostData, initState,
    openPostDetail]

/-- Witness for C7: the concrete example form (author "A", category
"food", title "T", excerpt "E", 1 KB PNG). -/
theorem create_then_view_twice_witness :
    ((handleSubmit initState formFull 5).1.posts.length = 1) ∧
    (((handleSubmit initState formFull 5).1.posts[0]?.map Post.views) =
      some 0) ∧
    ((openPostDetail
        (openPostDetail (handleSubmit initState formFull 5).1 0).1 0).2 =
      some 2) := by
  have h := create_then_view_twice formFull pngSample 5 (by decide)
    (by decide) (by decide)
  exact ⟨h.1, h.2.1, h.2.2.2.1⟩

/-- C10 counterexample: updating `postSample` (which carries the
attribution `attrSample`) through an edit-mode submit with no new image
leaves `imageAttribution = some attrSample` in the stored post — a field
of the previous post other than `views` and `image` is preserved, while
the pending session attribution is `none`, so it can only have come from
the previous post.  This refutes "only views (and image ...) are
preserved".  The last conjunct exhibits the claim's true half: the `date`
field is overwritten with the update time 99 (the previous value was 1). -/
theorem update_keeps_old_attribution :
    ((handleSubmit stateEditing { formFull with imageFile := none }
        99).1.posts[0]?.map Post.imageAttribution) = some (some attrSample) ∧
    stateEditing.selectedImageAttribution = none ∧
    postSample.date = 1 ∧
    ((handleSubmit stateEditing { formFull with imageFile := none }
        99).1.posts[0]?.map Post.date) = some 99 := by
  decide

/-- C10 amended: every edit-mode submit that passes validation — with or
without a new image — stores, at the edited index, exactly the merged
post whose `date` is the fresh update time `now`; of the previous post's
fields only `views` and `imageAttribution` are always preserved, plus
`image` (when truthy) in the no-usable-new-image case, while a usable new
image (present, size > 0) replaces the stored one with its data URL —
every other field comes from the fresh form snapshot. -/
theorem handleSubmit_edit_update (s : BlogState) (form : FormState)
    (now i : Nat) (ex : Post) (hidx : s.currentEditIndex = some i)
    (hex : s.posts[i]? = some ex)
    (hval : validateForm form (some i) = none) :
    ((handleSubmit s form now).1.posts[i]?) = some
      { author := jsTrim form.authorName
        category := form.postCategory
        title := jsTrim form.postTitle
        image :=
          match form.imageFile with
          | some f =>
            if 0 < f.size then some f.data
            else if jsTruthyOpt ex.image then ex.image else none
          | none => if jsTruthyOpt ex.image then ex.image else none
        excerpt := jsTrim form.postExcerpt
        content := jsOrS (jsTrim (form.postContent.getD ""))
          (jsTrim form.postExcerpt)
        tags := parseTags form.postTags
        date := now
        views := ex.views
        dateEdited := some now
        imageAttribution := ex.imageAttribution } := by
  have hlen : i < s.posts.length := by
    rcases List.getElem?_eq_some.mp hex with ⟨h, _⟩
    exact h
  simp only [handleSubmit, hidx, hval]
  cases himg : form.imageFile with
  | some f =>
    simp only [himg]
    by_cases hsz : 0 < f.size
    · simp only [if_pos hsz, closeModals, updatePost, hex,
        createPostData]
      simp [List.getElem?_set_self hlen, mergeForUpdate]
    · simp only [if_neg hsz, handleSubmitNoNewImage, hidx, hex,
        closeModals, updatePost, createPostData]
      by_cases h : jsTruthyOpt ex.image = true <;>
        simp [h, List.getElem?_set_self hlen, mergeForUpdate, hex]
  | none =>
    simp only [himg, handleSubmitNoNewImage, hidx, hex, closeModals,
      updatePost, createPostData]
    by_cases h : jsTruthyOpt ex.image = true <;>
      simp [h, List.getElem?_set_self hlen, mergeForUpdate, hex]

/-- Totality of the title comparator. -/
theorem titleLe_total : ∀ a b : List Char,
    titleLe a b = true ∨ titleLe b a = true
  | [], _ => Or.inl rfl
  | _ :: _, [] => Or.inr rfl
  | x :: xs, y :: ys => by
    rcases Nat.lt_trichotomy x.toNat y.toNat with h | h | h
    · left
      simp [titleLe, h]
    · rcases titleLe_total xs ys with ih | ih
      · left
        simp [titleLe, h, ih]
      · right
        simp [titleLe, h.symm, ih]
    · right
      simp [titleLe, h]

/-- Transitivity of the title comparator. -/
theorem titleLe_trans : ∀ a b c : List Char,
    titleLe a b = true → titleLe b c = true → titleLe a c = true
  | [], _, _, _, _ => rfl
  | _ :: _, [], _, h, _ => by simp [titleLe] at h
  | _ :: _, _ :: _, [], _, h => by simp [titleLe] at h
  | x :: xs, y :: ys, z :: zs, h1, h2 => by
    simp only [titleLe] at h1 h2 ⊢
    split_ifs at h1 h2 ⊢ with hxy hyx hyz hzy hxz hzx
    all_goals first
      | rfl
      | omega
      | exact titleLe_trans xs ys zs h1 h2

/-- The comparator for key "oldest" is the timestamp order. -/
theorem sortLe_oldest (a b : SortEntry) :
    sortLe "oldest" a b = decide (a.date ≤ b.date) := rfl

/-- The comparator for key "title" is the title order. -/
theorem sortLe_title (a b : SortEntry) :
    sortLe "title" a b = titleLe a.title.toList b.title.toList := rfl

/-- C9: `handleSort` with key "oldest" produces a permutation of its input
that is ascending in the timestamps, with ties kept in original order
(any comparator-ordered pair that occurs as a sublist of the input — in
particular any tied pair — still occurs in the output); with key "title"
likewise for the title order; and on the concrete two-element list
(title "B" at t=10, title "A" at t=20) the key "oldest" yields [B, A] and
the key "title" yields [A, B]. -/
theorem handleSort_contract :
    (∀ l : List SortEntry,
      (handleSort "oldest" l).Perm l ∧
      List.Pairwise (fun a b : SortEntry => a.date ≤ b.date)
        (handleSort "oldest" l) ∧
      (∀ a b : SortEntry, a.date ≤ b.date → [a, b].Sublist l →
        [a, b].Sublist (handleSort "oldest" l))) ∧
    (∀ l : List SortEntry,
      (handleSort "title" l).Perm l ∧
      List.Pairwise
        (fun a b : SortEntry =>
          titleLe a.title.toList b.title.toList = true)
        (handleSort "title" l) ∧
      (∀ a b : SortEntry, titleLe a.title.toList b.title.toList = true →
        [a, b].Sublist l → [a, b].Sublist (handleSort "title" l))) ∧
    handleSort "oldest" [entryB, entryA] = [entryB, entryA] ∧
    handleSort "title" [entryB, entryA] = [entryA, entryB] := by
  refine ⟨fun l => ⟨List.perm_insertionSort _ l, ?_, ?_⟩,
    fun l => ⟨List.perm_insertionSort _ l, ?_, ?_⟩, by decide, by decide⟩
  · haveI : IsTotal SortEntry
        (fun a b => sortLe "oldest" a b = true) := by
      constructor
      intro a b
      simp only [sortLe_oldest, decide_eq_true_eq]
      omega
    haveI : IsTrans SortEntry
        (fun a b => sortLe "oldest" a b = true) := by
      constructor
      intro a b c
      simp only [sortLe_oldest, decide_eq_true_eq]
      omega
    have h := List.sorted_insertionSort
      (fun a b : SortEntry => sortLe "oldest" a b = true) l
    exact h.imp (fun hab => by
      simpa [sortLe_oldest, decide_eq_true_eq] using hab)
  · intro a b hab hsub
    exact List.pair_sublist_insertionSort
      (by simpa [sortLe_oldest, decide_eq_true_eq] using hab) hsub
  · haveI : IsTotal SortEntry
        (fun a b => sortLe "title" a b = true) := by
      constructor
      intro a b
      simpa [sortLe_title] using titleLe_total a.title.toList b.title.toList
    haveI : IsTrans SortEntry
        (fun a b => sortLe "title" a b = true) := by
      constructor
      intro a b c h1 h2
      simp only [sortLe_title] at h1 h2 ⊢
      exact titleLe_trans _ _ _ h1 h2
    have h := List.sorted_insertionSort
      (fun a b : SortEntry => sortLe "title" a b = true) l
    exact h.imp (fun hab => by simpa [sortLe_title] using hab)
  · intro a b hab hsub
    exact List.pair_sublist_insertionSort
      (by simpa [sortLe_title] using hab) hsub

/-- Witness for C9: the universal parts applied to the concrete
two-element list — [B, A] is a comparator-ordered pair for "oldest", so
it survives as a sublist, and the output is a permutation of the input. -/
theorem handleSort_contract_witness :
    [entryB, entryA].Sublist (handleSort "oldest" [entryB, entryA]) ∧
    (handleSort "title" [entryB, entryA]).Perm [entryB, entryA] :=
  ⟨(handleSort_contract.1 [entryB, entryA]).2.2 entryB entryA (by decide)
      (by decide),
    (handleSort_contract.2.1 [entryB, entryA]).1⟩

/-- The C2 invariant: the draft store holds a draft only while the edit
session is in create mode (`currentEditIndex = none`). -/
def draftOnlyInCreate (s : BlogState) : Prop :=
  s.formDraft ≠ none → s.currentEditIndex = none

/-- Execution-time validity of the `openEdit` targets in an event
sequence: every `openEdit i` hits a live index of the post store as it is
when that event fires. -/
def editsValid : BlogState → List Op → Bool
  | _, [] => true
  | s, Op.openEdit i :: ops =>
    decide (i < s.posts.length) && editsValid (stepOp s (Op.openEdit i)) ops
  | s, op :: ops => editsValid (stepOp s op) ops

/-- Unfolding `editsValid` over one event. -/
theorem editsValid_cons (s : BlogState) (op : Op) (ops : List Op) :
    editsValid s (op :: ops) = true ↔
    ((∀ i, op = Op.openEdit i → i < s.posts.length) ∧
      editsValid (stepOp s op) ops = true) := by
  cases op <;> simp [editsValid]

/-- The create-modal path always ends with the session in create mode. -/
theorem openCreateModal_fst_idx (s : BlogState) (now : Nat) :
    ((openCreateModal s now).1).currentEditIndex = none := by
  unfold openCreateModal loadFormDraft clearFormDraft
  cases h : s.formDraft with
  | none => rfl
  | some d =>
    simp only
    by_cases hexp : now - d.savedAt > 7 * msPerDay
    · rw [if_pos hexp]
    · rw [if_neg hexp]
      cases d.selectedImageAttribution <;> rfl

/-- One event preserves the C2 invariant, provided an `openEdit` event
targets a live index. -/
theorem stepOp_draftOnlyInCreate (s : BlogState) (op : Op)
    (hinv : draftOnlyInCreate s)
    (hvalid : ∀ i, op = Op.openEdit i → i < s.posts.length) :
    draftOnlyInCreate (stepOp s op) := by
  cases op with
  | autosave form preview now =>
    simp only [stepOp, saveFormDraft]
    by_cases h : s.currentEditIndex.isSome = true
    · simpa [h] using hinv
    · have hn : s.currentEditIndex = none := by
        cases hi : s.currentEditIndex
        · rfl
        · rw [hi] at h
          simp at h
      simp only [h, if_false]
      split_ifs <;> intro _ <;> simp [hn]
  | openCreate now =>
    intro _
    exact openCreateModal_fst_idx s now
  | openEdit i =>
    have hlt : i < s.posts.length := hvalid i rfl
    obtain ⟨p, hp⟩ : ∃ p, s.posts[i]? = some p := by
      rw [List.getElem?_eq_getElem hlt]
      exact ⟨_, rfl⟩
    simp [stepOp, openEditModal, hp, clearFormDraft, draftOnlyInCreate]
  | closeModal =>
    intro _
    rfl
  | submit form now =>
    simp only [stepOp, handleSubmit]
    cases hv : validateForm form s.currentEditIndex with
    | some msg => exact hinv
    | none =>
      simp only
      cases himg : form.imageFile with
      | some f =>
        simp only
        split_ifs
        · cases hidx : s.currentEditIndex <;>
            simp [closeModals, draftOnlyInCreate]
        · cases hidx : s.currentEditIndex with
          | none => simpa [handleSubmitNoNewImage, hidx] using hinv
          | some i => simp [handleSubmitNoNewImage, hidx, closeModals,
              draftOnlyInCreate]
      | none =>
        cases hidx : s.currentEditIndex with
        | none => simpa [handleSubmitNoNewImage, hidx] using hinv
        | some i => simp [handleSubmitNoNewImage, hidx, closeModals,
            draftOnlyInCreate]
  | deleteReq i c =>
    simp only [stepOp, deletePost]
    cases hp : s.posts[i]? with
    | none => exact hinv
    | some q =>
      simp only
      split_ifs
      · intro h
        exact hinv h
      · exact hinv
  | viewPost i =>
    simp only [stepOp, openPostDetail]
    cases hp : s.posts[i]? with
    | none => exact hinv
    | some q =>
      intro h
      exact hinv h

/-- C2 amended: over every event sequence in which each `openEdit`
targets a live post-store index when it fires, the invariant "a draft is
stored only while the edit session is in create mode" is preserved: an
autosave fire in edit mode writes nothing, a (valid) `openEdit` clears
any pending draft, and a successful create-mode publish clears the
draft.  (The counterexample theorem shows why the valid-target proviso is
needed: an `openEdit` on a dead index leaves create mode without touching
the draft.) -/
theorem run_draftOnlyInCreate (ops : List Op) (s : BlogState)
    (hinv : draftOnlyInCreate s) (hvalid : editsValid s ops = true) :
    draftOnlyInCreate (run s ops) := by
  induction ops generalizing s with
  | nil => exact hinv
  | cons op ops ih =>
    rw [run, List.foldl_cons]
    rcases (editsValid_cons s op ops).mp hvalid with ⟨h1, h2⟩
    exact ih (stepOp s op) (stepOp_draftOnlyInCreate s op hinv h1) h2

/-- C2 counterexample: the claimed invariant fails over unrestricted
operation sequences.  From the initial state, one content-bearing
autosave followed by `openEdit 0` — an index the empty post store does
not contain — reaches a state whose draft store still holds the draft
while the edit session is no longer in create mode
(`currentEditIndex = some 0`), because `openEditModal` assigns the index
before its existence check and returns without clearing the draft. -/
theorem draft_present_outside_create :
    (run initState [Op.autosave formAOnly none 0,
      Op.openEdit 0]).formDraft.isSome = true ∧
    (run initState [Op.autosave formAOnly none 0,
      Op.openEdit 0]).currentEditIndex = some 0 := by
  decide

/-- Witness for C2 amended: a concrete three-event run — autosave, reopen
the create modal, publish — keeps the invariant. -/
theorem run_draftOnlyInCreate_witness :
    draftOnlyInCreate (run initState [Op.autosave formAOnly none 0,
      Op.openCreate 5, Op.submit formFull 6]) :=
  run_draftOnlyInCreate [Op.autosave formAOnly none 0, Op.openCreate 5,
    Op.submit formFull 6] initState (fun h => absurd rfl h) (by decide)

/-- Specification apparatus for C6: where the post that sits at index `j`
before event `op` fires sits afterwards (`none` = it is deleted).  The
branches mirror `stepOp`: a successful create-mode publish prepends, so
`j` moves to `j + 1`; a confirmed delete of a live index `i` removes `i`
and shifts the later indices down; every other event keeps positions. -/
def survMap (s : BlogState) (op : Op) (j : Nat) : Option Nat :=
  match op with
  | Op.autosave _ _ _ => some j
  | Op.openCreate _ => some j
  | Op.openEdit _ => some j
  | Op.closeModal => some j
  | Op.viewPost _ => some j
  | Op.submit form _ =>
    match validateForm form s.currentEditIndex with
    | some _ => some j
    | none =>
      match s.currentEditIndex with
      | some _ => some j
      | none =>
        match form.imageFile with
        | some f => if 0 < f.size then some (j + 1) else some j
        | none => some j
  | Op.deleteReq i c =>
    match s.posts[i]? with
    | none => some j
    | some _ =>
      if c then
        if j < i then some j else if j = i then none else some (j - 1)
      else some j

/-- Position tracking composed along a whole event sequence. -/
def survRun : BlogState → List Op → Nat → Option Nat
  | _, [], j => some j
  | s, op :: ops, j =>
    match survMap s op j with
    | none => none
    | some j1 => survRun (stepOp s op) ops j1

/-- Whether event `op`, fired in state `s`, is an update of an existing
post (a submit while the session is in edit mode). -/
def isUpdateStep (s : BlogState) (op : Op) : Bool :=
  match op with
  | Op.submit _ _ => s.currentEditIndex.isSome
  | _ => false

/-- An event sequence containing no update, judged at execution time. -/
def noUpdateRun : BlogState → List Op → Bool
  | _, [] => true
  | s, op :: ops => !(isUpdateStep s op) && noUpdateRun (stepOp s op) ops

/-- Every stored post is unedited (carries no `dateEdited` stamp). -/
def allUnedited (s : BlogState) : Prop :=
  ∀ p ∈ s.posts, p.dateEdited = none

/-- `saveFormDraft` never touches the post store. -/
theorem posts_saveFormDraft (s : BlogState) (form : FormState)
    (preview : Option String) (now : Nat) :
    (saveFormDraft s form preview now).posts = s.posts := by
  simp only [saveFormDraft]
  split_ifs <;> rfl

/-- `openCreateModal` never touches the post store. -/
theorem posts_openCreateModal (s : BlogState) (now : Nat) :
    ((openCreateModal s now).1).posts = s.posts := by
  unfold openCreateModal loadFormDraft clearFormDraft
  cases h : s.formDraft with
  | none => rfl
  | some d =>
    simp only
    by_cases hexp : now - d.savedAt > 7 * msPerDay
    · rw [if_pos hexp]
    · rw [if_neg hexp]
      cases d.selectedImageAttribution <;> rfl

/-- `openEditModal` never touches the post store. -/
theorem posts_openEditModal (s : BlogState) (form : FormState) (i : Nat) :
    ((openEditModal s form i).1).posts = s.posts := by
  unfold openEditModal clearFormDraft
  cases h : s.posts[i]? <;> rfl

/-- `updatePost` keeps some post at every occupied index and never lowers
a view count: the merged post at the target index inherits the existing
`views` verbatim, and other indices are untouched. -/
theorem updatePost_views_at (s : BlogState) (i : Nat) (pd : PostData)
    (now j : Nat) (p : Post) (hj : s.posts[j]? = some p) :
    ∃ p', (updatePost s i pd now).posts[j]? = some p' ∧
      p.views ≤ p'.views := by
  unfold updatePost
  cases hpi : s.posts[i]? with
  | none => exact ⟨p, hj, le_refl _⟩
  | some ex =>
    by_cases hij : i = j
    · subst hij
      have hex : ex = p := by
        rw [hj] at hpi
        exact (Option.some.inj hpi).symm
      refine ⟨mergeForUpdate ex pd now, ?_, ?_⟩
      · show (s.posts.set i (mergeForUpdate ex pd now))[i]? = _
        exact List.getElem?_set_self (List.getElem?_eq_some.mp hj).1
      · rw [hex]
        exact le_refl _
    · refine ⟨p, ?_, le_refl _⟩
      show (s.posts.set i (mergeForUpdate ex pd now))[j]? = some p
      rw [List.getElem?_set_ne hij]
      exact hj

/-- One event moves the post at `j` to `survMap`'s position without ever
lowering its view count. -/
theorem stepOp_views_mono (s : BlogState) (op : Op) (j j' : Nat) (p : Post)
    (hj : s.posts[j]? = some p) (hm : survMap s op j = some j') :
    ∃ p', (stepOp s op).posts[j']? = some p' ∧ p.views ≤ p'.views := by
  cases op with
  | autosave form preview now =>
    obtain rfl : j = j' := by simpa [survMap] using hm
    refine ⟨p, ?_, le_refl _⟩
    simp only [stepOp, posts_saveFormDraft]
    exact hj
  | openCreate now =>
    obtain rfl : j = j' := by simpa [survMap] using hm
    refine ⟨p, ?_, le_refl _⟩
    simp only [stepOp, posts_openCreateModal]
    exact hj
  | openEdit i =>
    obtain rfl : j = j' := by simpa [survMap] using hm
    refine ⟨p, ?_, le_refl _⟩
    simp only [stepOp, posts_openEditModal]
    exact hj
  | closeModal =>
    obtain rfl : j = j' := by simpa [survMap] using hm
    exact ⟨p, hj, le_refl _⟩
  | viewPost i =>
    obtain rfl : j = j' := by simpa [survMap] using hm
    simp only [stepOp, openPostDetail]
    cases hpi : s.posts[i]? with
    | none => exact ⟨p, hj, le_refl _⟩
    | some ex =>
      by_cases hij : i = j
      · subst hij
        have hex : ex = p := by
          rw [hj] at hpi
          exact (Option.some.inj hpi).symm
        refine ⟨{ ex with views := ex.views + 1 }, ?_, ?_⟩
        · show (s.posts.set i { ex with views := ex.views + 1 })[i]? = _
          exact List.getElem?_set_self (List.getElem?_eq_some.mp hj).1
        · rw [hex]
          exact Nat.le_succ _
      · refine ⟨p, ?_, le_refl _⟩
        show (s.posts.set i { ex with views := ex.views + 1 })[j]? = some p
        rw [List.getElem?_set_ne hij]
        exact hj
  | deleteReq i c =>
    simp only [stepOp, deletePost, survMap] at hm ⊢
    cases hpi : s.posts[i]? with
    | none =>
      rw [hpi] at hm
      obtain rfl : j = j' := Option.some.inj hm
      exact ⟨p, hj, le_refl _⟩
    | some ex =>
      rw [hpi] at hm
      by_cases hc : c
      · rw [if_pos hc] at hm
        rw [if_pos hc]
        by_cases h1 : j < i
        · rw [if_pos h1] at hm
          obtain rfl : j = j' := Option.some.inj hm
          refine ⟨p, ?_, le_refl _⟩
          show (s.posts.eraseIdx i)[j]? = some p
          rw [List.getElem?_eraseIdx, if_pos h1]
          exact hj
        · rw [if_neg h1] at hm
          by_cases h2 : j = i
          · rw [if_pos h2] at hm
            exact absurd hm (by simp)
          · rw [if_neg h2] at hm
            obtain rfl : j - 1 = j' := Option.some.inj hm
            refine ⟨p, ?_, le_refl _⟩
            show (s.posts.eraseIdx i)[j - 1]? = some p
            rw [List.getElem?_eraseIdx, if_neg (by omega),
              show j - 1 + 1 = j by omega]
            exact hj
      · rw [if_neg hc] at hm
        obtain rfl : j = j' := Option.some.inj hm
        rw [if_neg hc]
        exact ⟨p, hj, le_refl _⟩
  | submit form t =>
    simp only [stepOp, handleSubmit, survMap] at hm ⊢
    cases hv : validateForm form s.currentEditIndex with
    | some msg =>
      simp only [hv] at hm ⊢
      obtain rfl : j = j' := Option.some.inj hm
      exact ⟨p, hj, le_refl _⟩
    | none =>
      simp only [hv] at hm ⊢
      cases hidx : s.currentEditIndex with
      | some i =>
        simp only [hidx] at hm ⊢
        obtain rfl : j = j' := Option.some.inj hm
        cases himg : form.imageFile with
        | some f =>
          simp only [himg]
          by_cases hsz : 0 < f.size
          · rw [if_pos hsz]
            exact updatePost_views_at s i _ t j p hj
          · rw [if_neg hsz]
            simp only [handleSubmitNoNewImage, hidx]
            exact updatePost_views_at s i _ t j p hj
        | none =>
          simp only [himg, handleSubmitNoNewImage, hidx]
          exact updatePost_views_at s i _ t j p hj
      | none =>
        simp only [hidx] at hm ⊢
        cases himg : form.imageFile with
        | some f =>
          simp only [himg] at hm ⊢
          by_cases hsz : 0 < f.size
          · rw [if_pos hsz] at hm ⊢
            obtain rfl : j + 1 = j' := Option.some.inj hm
            refine ⟨p, ?_, le_refl _⟩
            show ((closeModals (createPost s _)).posts)[j + 1]? = some p
            simp only [closeModals, createPost, clearFormDraft]
            rw [List.getElem?_cons_succ]
            exact hj
          · rw [if_neg hsz] at hm ⊢
            obtain rfl : j = j' := Option.some.inj hm
            simp only [handleSubmitNoNewImage, hidx]
            exact ⟨p, hj, le_refl _⟩
        | none =>
          simp only [himg] at hm ⊢
          obtain rfl : j = j' := Option.some.inj hm
          simp only [handleSubmitNoNewImage, hidx]
          exact ⟨p, hj, le_refl _⟩

/-- One non-update event keeps every stored post unedited: events that do
not touch the store preserve it, a view bump keeps `dateEdited`, a delete
only removes, and a create-mode publish prepends a post whose
`dateEdited` is `none` (creation never stamps it). -/
theorem stepOp_allUnedited (s : BlogState) (op : Op)
    (h : allUnedited s) (hnu : isUpdateStep s op = false) :
    allUnedited (stepOp s op) := by
  cases op with
  | autosave form preview now =>
    intro q hq
    rw [stepOp, posts_saveFormDraft] at hq
    exact h q hq
  | openCreate now =>
    intro q hq
    rw [stepOp, posts_openCreateModal] at hq
    exact h q hq
  | openEdit i =>
    intro q hq
    rw [stepOp, posts_openEditModal] at hq
    exact h q hq
  | closeModal => exact h
  | viewPost i =>
    intro q hq
    simp only [stepOp, openPostDetail] at hq
    cases hpi : s.posts[i]? with
    | none =>
      rw [hpi] at hq
      exact h q hq
    | some ex =>
      rw [hpi] at hq
      rcases List.mem_or_eq_of_mem_set hq with hmem | rfl
      · exact h q hmem
      · have hexm : ex ∈ s.posts := by
          rcases List.getElem?_eq_some.mp hpi with ⟨hlt, hget⟩
          rw [← hget]
          exact List.getElem_mem hlt
        exact h ex hexm
  | deleteReq i c =>
    intro q hq
    simp only [stepOp, deletePost] at hq
    cases hpi : s.posts[i]? with
    | none =>
      rw [hpi] at hq
      exact h q hq
    | some ex =>
      rw [hpi] at hq
      by_cases hc : c
      · rw [if_pos hc] at hq
        exact h q ((List.eraseIdx_sublist s.posts i).subset hq)
      · rw [if_neg hc] at hq
        exact h q hq
  | submit form t =>
    have hidx : s.currentEditIndex = none := by
      simp only [isUpdateStep] at hnu
      cases hi : s.currentEditIndex
      · rfl
      · rw [hi] at hnu
        simp at hnu
    intro q hq
    simp only [stepOp, handleSubmit, hidx] at hq
    cases hv : validateForm form none with
    | some msg =>
      simp only [hv] at hq
      exact h q hq
    | none =>
      simp only [hv] at hq
      cases himg : form.imageFile with
      | some f =>
        simp only [himg] at hq
        by_cases hsz : 0 < f.size
        · rw [if_pos hsz] at hq
          simp only [closeModals, createPost, clearFormDraft] at hq
          rcases List.mem_cons.mp hq with rfl | hmem
          · rfl
          · exact h q hmem
        · rw [if_neg hsz] at hq
          simp only [handleSubmitNoNewImage, hidx] at hq
          exact h q hq
      | none =>
        simp only [himg, handleSubmitNoNewImage, hidx] at hq
        exact h q hq

/-- Views never decrease along any event sequence, for every post that
survives it (positions tracked by `survRun`). -/
theorem survRun_views_mono (ops : List Op) : ∀ (s : BlogState)
    (j j' : Nat) (p p' : Post), survRun s ops j = some j' →
    s.posts[j]? = some p → (run s ops).posts[j']? = some p' →
    p.views ≤ p'.views := by
  induction ops with
  | nil =>
    intro s j j' p p' hm hj hj'
    obtain rfl : j = j' := by simpa [survRun] using hm
    rw [show run s [] = s from rfl, hj] at hj'
    rw [Option.some.inj hj']
  | cons op ops ih =>
    intro s j j' p p' hm hj hj'
    simp only [survRun] at hm
    cases hstep : survMap s op j with
    | none =>
      rw [hstep] at hm
      exact absurd hm (by simp)
    | some j1 =>
      rw [hstep] at hm
      obtain ⟨p1, hp1, hle1⟩ := stepOp_views_mono s op j j1 p hj hstep
      refine le_trans hle1 (ih (stepOp s op) j1 j' p1 p' hm hp1 ?_)
      rw [run, List.foldl_cons] at hj'
      exact hj'

/-- Along any sequence without update events, every post stays
unedited. -/
theorem run_allUnedited (ops : List Op) : ∀ s : BlogState,
    allUnedited s → noUpdateRun s ops = true →
    allUnedited (run s ops) := by
  induction ops with
  | nil => exact fun s h _ => h
  | cons op ops ih =>
    intro s h hnu
    simp only [noUpdateRun, Bool.and_eq_true, Bool.not_eq_eq_eq_not,
      Bool.not_true] at hnu
    rw [run, List.foldl_cons]
    exact ih (stepOp s op) (stepOp_allUnedited s op h hnu.1) hnu.2

/-- C6: over every event sequence, (a) each surviving post's view count
is monotonically non-decreasing (surviving positions tracked by
`survRun`); (b) if every stored post is unedited and the sequence
contains no update, every post is still unedited at the end — creation
never stamps `editedAt`; (c) an update stores the merged post, which
preserves the existing `views` verbatim and stamps `dateEdited` with the
update time. -/
theorem views_monotone_editedAt_only_update :
    (∀ (ops : List Op) (s : BlogState) (j j' : Nat) (p p' : Post),
      survRun s ops j = some j' → s.posts[j]? = some p →
      (run s ops).posts[j']? = some p' → p.views ≤ p'.views) ∧
    (∀ (ops : List Op) (s : BlogState), allUnedited s →
      noUpdateRun s ops = true → allUnedited (run s ops)) ∧
    (∀ (s : BlogState) (i : Nat) (pd : PostData) (now : Nat) (ex : Post),
      s.posts[i]? = some ex →
      (updatePost s i pd now).posts[i]? =
        some (mergeForUpdate ex pd now) ∧
      (mergeForUpdate ex pd now).views = ex.views ∧
      (mergeForUpdate ex pd now).dateEdited = some now) := by
  refine ⟨fun ops s => survRun_views_mono ops s,
    fun ops => run_allUnedited ops, fun s i pd now ex hex => ⟨?_, rfl, rfl⟩⟩
  unfold updatePost
  rw [hex]
  show (s.posts.set i (mergeForUpdate ex pd now))[i]? = _
  exact List.getElem?_set_self (List.getElem?_eq_some.mp hex).1

/-- A state holding `postSample` (3 views) in create mode. -/
def statePosted : BlogState :=
  { initState with posts := [postSample] }

/-- Witness for C6: concretely, a view-increment run takes the sample
post from 3 views to 4; a publish-only run keeps every post unedited;
and updating the sample post at index 0 stores its merge. -/
theorem views_monotone_editedAt_only_update_witness :
    postSample.views ≤ ({ postSample with views := 4 } : Post).views ∧
    allUnedited (run initState [Op.submit formFull 5]) ∧
    (updatePost stateEditing 0 (createPostData formFull none 9) 9).posts[0]?
      = some (mergeForUpdate postSample (createPostData formFull none 9) 9)
    := by
  have h := views_monotone_editedAt_only_update
  refine ⟨h.1 [Op.viewPost 0] statePosted 0 0 postSample
      { postSample with views := 4 } (by decide) (by decide) (by decide),
    h.2.1 [Op.submit formFull 5] initState (by simp [allUnedited, initState])
      (by decide),
    (h.2.2 stateEditing 0 (createPostData formFull none 9) 9 postSample
      (by decide)).1⟩

/-- Witness for C10 amended, exercising both update paths on
`postSample`: without a new image the stored image survives, with the
fresh 1 KB PNG its data URL replaces it; both overwrite `date` with the
update time 99 and preserve `views` and the attribution. -/
theorem handleSubmit_edit_update_witness :
    ((handleSubmit stateEditing { formFull with imageFile := none }
        99).1.posts[0]?) = some
      { author := "A", category := "food", title := "T"
        image := some "img", excerpt := "E", content := "E"
        tags := [], date := 99, views := 3, dateEdited := some 99
        imageAttribution := some attrSample } ∧
    ((handleSubmit stateEditing formFull 99).1.posts[0]?) = some
      { author := "A", category := "food", title := "T"
        image := some "data:image/png;base64,xyz", excerpt := "E"
        content := "E", tags := [], date := 99, views := 3
        dateEdited := some 99, imageAttribution := some attrSample } := by
  constructor
  · rw [handleSubmit_edit_update stateEditing
      { formFull with imageFile := none } 99 0 postSample (by decide)
      (by decide) (by decide)]
    decide
  · rw [handleSubmit_edit_update stateEditing formFull 99 0 postSample
      (by decide) (by decide) (by decide)]
    decide

end Blog
